import Mathlib

/-!
Verification of the mortgage payment / amortization-schedule core of
`src/LoanAmortization&PaymentSchedule.py`.

The Python floats are modelled as exact ordered-field arithmetic: the rate
converter and payment solver (which use fractional real exponents) are
embedded over `ℝ` with `Real.rpow`, while the per-period schedule loop is
embedded generically over any linear ordered field with a floor (so that all
of its properties can also be evaluated concretely over `ℚ`).

`np.round(x, 2)` is modelled by `round2` below, built on Mathlib's `round`
(nearest integer).  NumPy resolves exact ties at the third decimal to the
even neighbour while `round` resolves them upward; no statement in this file
depends on a tie, and the repository's own design notes leave the tie-breaking
mode explicitly unspecified, so the two agree on everything proved here.
-/

namespace Mortgage

variable {α : Type} [LinearOrderedField α] [FloorRing α]

/-- `np.round(x, 2)`: round to two decimal places. -/
def round2 (x : α) : α :=
  ((round (x * 100) : ℤ) : α) / 100

/-- One row of a generated schedule, holding the five per-period columns the
loop in `generate_schedule` accumulates (`period`, `beginning_balance`,
`interest`, `principal_paid`, `ending_balance`). -/
structure Row (α : Type) where
  period : ℕ
  beginningBalance : α
  interestPaid : α
  principalPaid : α
  endingBalance : α
deriving DecidableEq

/-- One row of the final DataFrame, which additionally carries the constant
`Payment` column inserted at DataFrame construction time. -/
structure DFRow (α : Type) where
  period : ℕ
  beginningBalance : α
  payment : α
  interestPaid : α
  principalPaid : α
  endingBalance : α
deriving DecidableEq

/-- The per-period loop body of `MortgagePaymentCalculator.generate_schedule`
(source lines 129–155): interest and principal are rounded to two decimals,
the final payment is clamped when the balance would go negative, and the loop
breaks as soon as the ending balance is `≤ 0`.  `k` counts the remaining
periods of `range(1, Term_Periods + 1)` and `i` is the 1-based period index. -/
def schedule_loop (Pmt Rate : α) : ℕ → ℕ → α → List (Row α)
  | 0, _, _ => []
  | k + 1, i, bal =>
    let I_Pmt := round2 (bal * Rate)
    let Principal_Pmt := round2 (Pmt - I_Pmt)
    let adjusted : α × α :=
      if bal - Principal_Pmt < 0 then (bal, 0)
      else (Principal_Pmt, round2 (bal - Principal_Pmt))
    { period := i, beginningBalance := round2 bal, interestPaid := I_Pmt,
      principalPaid := adjusted.1, endingBalance := adjusted.2 } ::
      (if adjusted.2 ≤ 0 then [] else schedule_loop Pmt Rate k (i + 1) adjusted.2)

/-- Modelled from the spec (§4.3, steps 1–3): one simulated period, returning
`(interestPortion, principalPortion, endingBalance)` computed from the running
balance, with rounding applied at each intermediate step and the final-payoff
clamp. -/
def specStep (Rate Pmt bal : α) : α × α × α :=
  let I := round2 (bal * Rate)
  let P := round2 (Pmt - I)
  if bal - P < 0 then (I, bal, 0) else (I, P, round2 (bal - P))

/-- The balance at the start of period index `j` (0-based) of a schedule that
began at balance `bal`: `bal` for the first row, and the previous row's
ending balance afterwards. -/
def nthBal (bal : α) (l : List (Row α)) : ℕ → α
  | 0 => bal
  | j + 1 => ((l[j]?.map Row.endingBalance).getD 0)

/-- DataFrame construction (source lines 158–165): the computed rows plus the
constant `Payment` column `[np.round(Pmt, 2)] * len(period)`. -/
def build_df (Pmt : α) (rows : List (Row α)) : List (DFRow α) :=
  rows.map fun r =>
    { period := r.period, beginningBalance := r.beginningBalance,
      payment := round2 Pmt, interestPaid := r.interestPaid,
      principalPaid := r.principalPaid, endingBalance := r.endingBalance }

instance : Inhabited (Row α) :=
  ⟨{ period := 0, beginningBalance := 0, interestPaid := 0,
     principalPaid := 0, endingBalance := 0 }⟩

/-! ### Elementary facts about `round2` -/

theorem round2_zero : round2 (0 : α) = 0 := by
  simp [round2]

theorem round2_nonneg {x : α} (h : -(1 / 200) ≤ x) : 0 ≤ round2 x := by
  unfold round2
  have h1 : (0 : ℤ) ≤ round (x * 100) := by
    rw [round_eq, Int.le_floor]
    push_cast
    linarith
  have h2 : (0 : α) ≤ ((round (x * 100) : ℤ) : α) := by exact_mod_cast h1
  have : (0 : α) < 100 := by norm_num
  exact div_nonneg h2 this.le

theorem round2_intCast_div (m : ℤ) : round2 ((m : α) / 100) = (m : α) / 100 := by
  unfold round2
  have h : ((m : α) / 100) * 100 = (m : α) := by
    field_simp
  rw [h, round_intCast]

theorem round2_isCent (x : α) : ∃ m : ℤ, round2 x = (m : α) / 100 :=
  ⟨round (x * 100), rfl⟩

theorem round2_round2 (x : α) : round2 (round2 x) = round2 x := by
  obtain ⟨m, hm⟩ := round2_isCent x
  rw [hm, round2_intCast_div]

/-! ### The real-valued pipeline: rate converter, payment solver, plans -/

/-- Monthly periodic rate (source line 27): `(1 + ir/2)^(2/12) - 1`, where
`ir` is `self.interestrate`, the nominal annual rate as a decimal fraction. -/
noncomputable def monthlyinterestrate (ir : ℝ) : ℝ :=
  (1 + ir / 2) ^ ((2 : ℝ) / 12) - 1

/-- Semi-monthly periodic rate (source line 31). -/
noncomputable def semimonthlyinterestrate (ir : ℝ) : ℝ :=
  (1 + ir / 2) ^ ((2 : ℝ) / 24) - 1

/-- Bi-weekly periodic rate (source line 35). -/
noncomputable def biweeklyinterestrate (ir : ℝ) : ℝ :=
  (1 + ir / 2) ^ ((2 : ℝ) / 26) - 1

/-- Weekly periodic rate (source line 39). -/
noncomputable def weeklyinterestrate (ir : ℝ) : ℝ :=
  (1 + ir / 2) ^ ((2 : ℝ) / 52) - 1

/-- Modelled from the spec (§4.1): `periodicRate(f) = (1 + r/2)^(2/f) − 1`
for a payment frequency of `f` payments per year. -/
noncomputable def specPeriodicRate (f : ℕ) (nominalAnnualRate : ℝ) : ℝ :=
  (1 + nominalAnnualRate / 2) ^ ((2 : ℝ) / (f : ℝ)) - 1

/-- The inner annuity solver of `calculatepayments` (source lines 53–57):
`P = principal * (r * (1 + r)^n) / ((1 + r)^n - 1)`, with the zero-rate
branch returning `principal / periods`.  `periods` is a real number: the
fractional period counts passed for the bi-weekly/weekly plans are used
unrounded. -/
noncomputable def calculate_payment (principal periodic_rate periods : ℝ) : ℝ :=
  if periodic_rate = 0 then principal / periods
  else principal * (periodic_rate * (1 + periodic_rate) ^ periods) /
    ((1 + periodic_rate) ^ periods - 1)

/-- Modelled from the spec (§4.2): the annuity formula
`payment = r==0 ? principal/n : principal × r×(1+r)^n / ((1+r)^n − 1)`. -/
noncomputable def specAnnuityPayment (principal r n : ℝ) : ℝ :=
  if r = 0 then principal / n
  else principal * (r * (1 + r) ^ n) / ((1 + r) ^ n - 1)

/-- The state constructed by `MortgagePaymentCalculator.__init__`:
`interestrate` is stored as a decimal fraction (input percentage / 100). -/
structure MortgagePaymentCalculator where
  principal : ℝ
  interestrate : ℝ
  amortization_period : ℝ
  term : ℕ

/-- `MortgagePaymentCalculator(principal, interestrate, amortization_period,
term)` (source lines 12–21): the constructor converts the percentage input to
a decimal fraction.  The four periodic-rate fields of `__init__` are pure
functions of `interestrate` and are represented by the four rate definitions
above. -/
noncomputable def mkCalculator (principal interestrate amortization_period : ℝ)
    (term : ℕ) : MortgagePaymentCalculator :=
  { principal := principal, interestrate := interestrate / 100,
    amortization_period := amortization_period, term := term }

/-- The six payment amounts returned by `calculatepayments`, in tuple order. -/
structure Payments where
  MonthlyPayment : ℝ
  SemiMonthlyPayment : ℝ
  BiweeklyPayment : ℝ
  WeeklyPayment : ℝ
  RapidBiweeklyPayment : ℝ
  RapidWeeklyPayment : ℝ

/-- `MortgagePaymentCalculator.calculatepayments` (source lines 41–78):
`n_months = amortization_period * 12`; each of the four base plans is solved
by `calculate_payment` on its own periodic rate and period count, and the two
rapid plans are `MonthlyPayment / 2` and `MonthlyPayment / 4`. -/
noncomputable def MortgagePaymentCalculator.calculatepayments
    (self : MortgagePaymentCalculator) : Payments :=
  let n_months := self.amortization_period * 12
  let MonthlyPayment :=
    calculate_payment self.principal (monthlyinterestrate self.interestrate) n_months
  let SemiMonthlyPayment :=
    calculate_payment self.principal (semimonthlyinterestrate self.interestrate) (n_months * 2)
  let BiweeklyPayment :=
    calculate_payment self.principal (biweeklyinterestrate self.interestrate)
      (n_months * (26 / 12))
  let WeeklyPayment :=
    calculate_payment self.principal (weeklyinterestrate self.interestrate)
      (n_months * (52 / 12))
  { MonthlyPayment := MonthlyPayment, SemiMonthlyPayment := SemiMonthlyPayment,
    BiweeklyPayment := BiweeklyPayment, WeeklyPayment := WeeklyPayment,
    RapidBiweeklyPayment := MonthlyPayment / 2,
    RapidWeeklyPayment := MonthlyPayment / 4 }

/-- The six plan names of `payment_names` / the dictionary keys. -/
inductive PlanName
  | Monthly
  | SemiMonthly
  | BiWeekly
  | Weekly
  | RapidBiWeekly
  | RapidWeekly
deriving DecidableEq

/-- The `frequencies` dictionary (source lines 97–98): payments per year. -/
def frequencies : PlanName → ℕ
  | .Monthly => 12
  | .SemiMonthly => 24
  | .BiWeekly => 26
  | .Weekly => 52
  | .RapidBiWeekly => 26
  | .RapidWeekly => 52

/-- The `rates` dictionary (source lines 102–107): the rapid plans reuse the
bi-weekly and weekly periodic rates. -/
noncomputable def MortgagePaymentCalculator.rates
    (self : MortgagePaymentCalculator) : PlanName → ℝ
  | .Monthly => monthlyinterestrate self.interestrate
  | .SemiMonthly => semimonthlyinterestrate self.interestrate
  | .BiWeekly => biweeklyinterestrate self.interestrate
  | .Weekly => weeklyinterestrate self.interestrate
  | .RapidBiWeekly => biweeklyinterestrate self.interestrate
  | .RapidWeekly => weeklyinterestrate self.interestrate

/-- The `payment_info` dictionary (source line 92): `zip(payment_names,
payments)`. -/
def payment_info (p : Payments) : PlanName → ℝ
  | .Monthly => p.MonthlyPayment
  | .SemiMonthly => p.SemiMonthlyPayment
  | .BiWeekly => p.BiweeklyPayment
  | .Weekly => p.WeeklyPayment
  | .RapidBiWeekly => p.RapidBiweeklyPayment
  | .RapidWeekly => p.RapidWeeklyPayment

/-- `MortgagePaymentCalculator.generate_schedule` (source lines 81–169),
restricted to one plan name: `Term_Periods = self.term * frequencies[name]`
(source line 112), the per-period loop starting from the principal, and the
DataFrame assembly that adds the constant rounded `Payment` column. -/
noncomputable def MortgagePaymentCalculator.generate_schedule
    (self : MortgagePaymentCalculator) (name : PlanName) : List (DFRow ℝ) :=
  let payments := self.calculatepayments
  let Pmt := payment_info payments name
  let Term_Periods := self.term * frequencies name
  let Rate := self.rates name
  build_df Pmt (schedule_loop Pmt Rate Term_Periods 1 self.principal)

/-! ### Structural lemmas about one simulated period -/

theorem specStep_clamp {Rate Pmt bal : α}
    (h : bal - round2 (Pmt - round2 (bal * Rate)) < 0) :
    specStep Rate Pmt bal = (round2 (bal * Rate), bal, 0) := by
  simp only [specStep]
  rw [if_pos h]

theorem specStep_noclamp {Rate Pmt bal : α}
    (h : ¬bal - round2 (Pmt - round2 (bal * Rate)) < 0) :
    specStep Rate Pmt bal =
      (round2 (bal * Rate), round2 (Pmt - round2 (bal * Rate)),
        round2 (bal - round2 (Pmt - round2 (bal * Rate)))) := by
  simp only [specStep]
  rw [if_neg h]

theorem specStep_fst (Rate Pmt bal : α) :
    (specStep Rate Pmt bal).1 = round2 (bal * Rate) := by
  by_cases h : bal - round2 (Pmt - round2 (bal * Rate)) < 0
  · rw [specStep_clamp h]
  · rw [specStep_noclamp h]

theorem specStep_ending_nonneg (Rate Pmt bal : α) :
    0 ≤ (specStep Rate Pmt bal).2.2 := by
  by_cases h : bal - round2 (Pmt - round2 (bal * Rate)) < 0
  · rw [specStep_clamp h]
  · rw [specStep_noclamp h]
    exact round2_nonneg (by push_neg at h; linarith)

theorem specStep_ending_cent (Rate Pmt bal : α) :
    ∃ m : ℤ, (specStep Rate Pmt bal).2.2 = (m : α) / 100 := by
  by_cases h : bal - round2 (Pmt - round2 (bal * Rate)) < 0
  · exact ⟨0, by rw [specStep_clamp h]; simp⟩
  · rw [specStep_noclamp h]
    exact round2_isCent _

theorem specStep_ending_round2 (Rate Pmt bal : α) :
    round2 (specStep Rate Pmt bal).2.2 = (specStep Rate Pmt bal).2.2 := by
  obtain ⟨m, hm⟩ := specStep_ending_cent Rate Pmt bal
  rw [hm, round2_intCast_div]

/-- The loop body of `generate_schedule`, expressed through `specStep`: each
emitted row carries exactly the spec-side triple of interest, principal and
ending balance for the current balance, and the loop recurses on the ending
balance unless it is `≤ 0`. -/
theorem schedule_loop_succ_eq (Pmt Rate : α) (k i : ℕ) (bal : α) :
    schedule_loop Pmt Rate (k + 1) i bal =
      { period := i, beginningBalance := round2 bal,
        interestPaid := (specStep Rate Pmt bal).1,
        principalPaid := (specStep Rate Pmt bal).2.1,
        endingBalance := (specStep Rate Pmt bal).2.2 } ::
      (if (specStep Rate Pmt bal).2.2 ≤ 0 then []
       else schedule_loop Pmt Rate k (i + 1) (specStep Rate Pmt bal).2.2) := by
  rw [schedule_loop]
  simp only [specStep]
  by_cases hc : bal - round2 (Pmt - round2 (bal * Rate)) < 0
  · simp only [if_pos hc]
  · simp only [if_neg hc]

/-! ### Structural lemmas about the whole loop -/

theorem schedule_loop_length_le (Pmt Rate : α) :
    ∀ (k i : ℕ) (bal : α), (schedule_loop Pmt Rate k i bal).length ≤ k := by
  intro k
  induction k with
  | zero => intro i bal; simp [schedule_loop]
  | succ k ih =>
    intro i bal
    rw [schedule_loop_succ_eq]
    by_cases h : (specStep Rate Pmt bal).2.2 ≤ 0
    · rw [if_pos h]; simp
    · rw [if_neg h]
      have := ih (i + 1) (specStep Rate Pmt bal).2.2
      simp only [List.length_cons]
      omega

theorem schedule_loop_ne_nil {Pmt Rate : α} {k i : ℕ} {bal : α} (h : 0 < k) :
    schedule_loop Pmt Rate k i bal ≠ [] := by
  match k, h with
  | k + 1, _ =>
    rw [schedule_loop_succ_eq]
    exact List.cons_ne_nil _ _

theorem schedule_loop_pos_chain (Pmt Rate : α) :
    ∀ (k i : ℕ) (bal : α),
      List.Chain' (fun a _ => 0 < a.endingBalance) (schedule_loop Pmt Rate k i bal) := by
  intro k
  induction k with
  | zero => intro i bal; simp [schedule_loop]
  | succ k ih =>
    intro i bal
    rw [schedule_loop_succ_eq]
    by_cases hE : (specStep Rate Pmt bal).2.2 ≤ 0
    · rw [if_pos hE]
      exact List.chain'_singleton _
    · rw [if_neg hE]
      rw [List.chain'_cons']
      refine ⟨fun y _ => ?_, ih (i + 1) _⟩
      simpa using lt_of_not_le hE

theorem schedule_loop_getLast (Pmt Rate : α) :
    ∀ (k i : ℕ) (bal : α),
      schedule_loop Pmt Rate k i bal = [] ∨
      ∃ r, (schedule_loop Pmt Rate k i bal).getLast? = some r ∧
        (r.endingBalance = 0 ∨
          ((schedule_loop Pmt Rate k i bal).length = k ∧ 0 < r.endingBalance)) := by
  intro k
  induction k with
  | zero => intro i bal; exact Or.inl rfl
  | succ k ih =>
    intro i bal
    right
    rw [schedule_loop_succ_eq]
    by_cases hE : (specStep Rate Pmt bal).2.2 ≤ 0
    · rw [if_pos hE]
      refine ⟨_, rfl, Or.inl ?_⟩
      exact le_antisymm hE (specStep_ending_nonneg Rate Pmt bal)
    · rw [if_neg hE]
      push_neg at hE
      rcases Nat.eq_zero_or_pos k with hk | hk
      · subst hk
        simp only [schedule_loop]
        exact ⟨_, rfl, Or.inr ⟨rfl, hE⟩⟩
      · rcases ih (i + 1) (specStep Rate Pmt bal).2.2 with hnil | ⟨r, hlast, hr⟩
        · exact absurd hnil (schedule_loop_ne_nil hk)
        · have hTnil : schedule_loop Pmt Rate k (i + 1) (specStep Rate Pmt bal).2.2 ≠ [] :=
            schedule_loop_ne_nil hk
          obtain ⟨t, T', hT⟩ := List.exists_cons_of_ne_nil hTnil
          refine ⟨r, ?_, ?_⟩
          · rw [hT, List.getLast?_cons_cons, ← hT]
            exact hlast
          · rcases hr with h0 | ⟨hlen, hpos⟩
            · exact Or.inl h0
            · exact Or.inr ⟨by simp [hlen], hpos⟩

theorem schedule_loop_zero_rate (Pmt : α) :
    ∀ (k i : ℕ) (bal : α),
      List.Forall (fun r => r.interestPaid = 0) (schedule_loop Pmt 0 k i bal) := by
  intro k
  induction k with
  | zero => intro i bal; rw [schedule_loop]; trivial
  | succ k ih =>
    intro i bal
    rw [schedule_loop_succ_eq, List.forall_cons]
    refine And.intro ?_ ?_
    · show (specStep 0 Pmt bal).1 = 0
      rw [specStep_fst, mul_zero, round2_zero]
    · by_cases hE : (specStep 0 Pmt bal).2.2 ≤ 0
      · rw [if_pos hE]; trivial
      · rw [if_neg hE]
        exact ih (i + 1) _

omit [FloorRing α] in
theorem nthBal_cons (r : Row α) (l : List (Row α)) (bal : α) (j : ℕ) :
    nthBal bal (r :: l) (j + 1) = nthBal r.endingBalance l j := by
  cases j with
  | zero => simp [nthBal]
  | succ j => simp [nthBal]

/-- Adjacent rows agree: each row's ending balance is the next row's
beginning balance.  The next beginning balance is `round2` of the running
balance, which is exactly the previous ending balance (always a whole number
of cents, so re-rounding it is the identity). -/
theorem schedule_loop_adjacent (Pmt Rate : α) :
    ∀ (k i : ℕ) (bal : α) (j : ℕ),
      j + 1 < (schedule_loop Pmt Rate k i bal).length →
      ((schedule_loop Pmt Rate k i bal).getD j default).endingBalance =
        ((schedule_loop Pmt Rate k i bal).getD (j + 1) default).beginningBalance := by
  intro k
  induction k with
  | zero => intro i bal j h; simp [schedule_loop] at h
  | succ k ih =>
    intro i bal j h
    rw [schedule_loop_succ_eq] at h ⊢
    by_cases hE : (specStep Rate Pmt bal).2.2 ≤ 0
    · rw [if_pos hE] at h
      simp at h
    · rw [if_neg hE] at h ⊢
      cases j with
      | zero =>
        simp only [List.getD_cons_zero, List.getD_cons_succ]
        have hk : 0 < k := by
          by_contra hk0
          have : k = 0 := by omega
          subst this
          simp [schedule_loop] at h
        match k, hk with
        | k' + 1, _ =>
          rw [schedule_loop_succ_eq]
          simp only [List.getD_cons_zero]
          exact (specStep_ending_round2 Rate Pmt bal).symm
      | succ j =>
        simp only [List.getD_cons_succ]
        refine ih (i + 1) _ j ?_
        simpa using h

/-- Every row of the loop output is computed from the running balance (the
previous row's ending balance, or the initial balance for the first row) by
exactly the spec-side step `specStep`. -/
theorem schedule_loop_step (Pmt Rate : α) :
    ∀ (k i : ℕ) (bal : α) (j : ℕ),
      j < (schedule_loop Pmt Rate k i bal).length →
      (((schedule_loop Pmt Rate k i bal).getD j default).interestPaid,
        ((schedule_loop Pmt Rate k i bal).getD j default).principalPaid,
        ((schedule_loop Pmt Rate k i bal).getD j default).endingBalance) =
        specStep Rate Pmt (nthBal bal (schedule_loop Pmt Rate k i bal) j) := by
  intro k
  induction k with
  | zero => intro i bal j h; simp [schedule_loop] at h
  | succ k ih =>
    intro i bal j h
    rw [schedule_loop_succ_eq] at h ⊢
    cases j with
    | zero =>
      simp only [List.getD_cons_zero]
      rfl
    | succ j =>
      rw [nthBal_cons]
      simp only [List.getD_cons_succ]
      by_cases hE : (specStep Rate Pmt bal).2.2 ≤ 0
      · rw [if_pos hE] at h
        simp at h
      · rw [if_neg hE] at h ⊢
        refine ih (i + 1) _ j ?_
        simpa using h

theorem getLast?_map_eq {β γ : Type} (f : β → γ) :
    ∀ l : List β, (l.map f).getLast? = l.getLast?.map f
  | [] => rfl
  | [_] => rfl
  | a :: b :: l => by
    rw [List.map_cons, List.map_cons, List.getLast?_cons_cons, List.getLast?_cons_cons,
      ← List.map_cons]
    exact getLast?_map_eq f (b :: l)

/-! ### Facts about the rate converter at rate zero -/

theorem monthlyinterestrate_zero : monthlyinterestrate 0 = 0 := by
  unfold monthlyinterestrate
  rw [show (1 : ℝ) + 0 / 2 = 1 by norm_num, Real.one_rpow]
  norm_num

theorem semimonthlyinterestrate_zero : semimonthlyinterestrate 0 = 0 := by
  unfold semimonthlyinterestrate
  rw [show (1 : ℝ) + 0 / 2 = 1 by norm_num, Real.one_rpow]
  norm_num

theorem biweeklyinterestrate_zero : biweeklyinterestrate 0 = 0 := by
  unfold biweeklyinterestrate
  rw [show (1 : ℝ) + 0 / 2 = 1 by norm_num, Real.one_rpow]
  norm_num

theorem weeklyinterestrate_zero : weeklyinterestrate 0 = 0 := by
  unfold weeklyinterestrate
  rw [show (1 : ℝ) + 0 / 2 = 1 by norm_num, Real.one_rpow]
  norm_num

theorem calculate_payment_eq_spec (p r : ℝ) {n n' : ℝ} (h : n = n') :
    calculate_payment p r n = specAnnuityPayment p r n' := by
  subst h; rfl

/-! ### Claim theorems -/

/-- C1: every simulated period computes exactly
`interestPortion = round(beginningBalance × periodicRate, 2)`,
`principalPortion = round(payment − interestPortion, 2)`, then clamps the
principal to the balance (ending balance 0) when the balance would go
negative, and otherwise sets
`endingBalance = round(beginningBalance − principalPortion, 2)`; rounding is
applied at each of those intermediate steps.  Formally, every row of the loop
output equals `specStep` — the spec's per-period recipe, rounding included —
applied to that period's beginning balance (`nthBal`: the initial balance for
row 0, the previous row's ending balance afterwards). -/
theorem claim_C1 (Pmt Rate bal : α) (k i j : ℕ)
    (h : j < (schedule_loop Pmt Rate k i bal).length) :
    (((schedule_loop Pmt Rate k i bal).getD j default).interestPaid,
      ((schedule_loop Pmt Rate k i bal).getD j default).principalPaid,
      ((schedule_loop Pmt Rate k i bal).getD j default).endingBalance) =
      specStep Rate Pmt (nthBal bal (schedule_loop Pmt Rate k i bal) j) :=
  schedule_loop_step Pmt Rate k i bal j h

theorem claim_C1_witness :
    1 < (schedule_loop (30 : ℚ) (1 / 10) 5 1 100).length ∧
    (((schedule_loop (30 : ℚ) (1 / 10) 5 1 100).getD 1 default).interestPaid,
      ((schedule_loop (30 : ℚ) (1 / 10) 5 1 100).getD 1 default).principalPaid,
      ((schedule_loop (30 : ℚ) (1 / 10) 5 1 100).getD 1 default).endingBalance) =
      specStep (1 / 10) 30 (nthBal 100 (schedule_loop (30 : ℚ) (1 / 10) 5 1 100) 1) :=
  ⟨by norm_num [schedule_loop, specStep, round2, round_eq],
    claim_C1 30 (1 / 10) 100 5 1 1
      (by norm_num [schedule_loop, specStep, round2, round_eq])⟩

/-- C2: each periodic effective rate follows the semi-annual compounding
convention `(1 + r/2)^(2/f) − 1` for its frequency `f ∈ {12, 24, 26, 52}`
(`specPeriodicRate` is that formula, transcribed from the spec), and each
rate is `0` when the nominal annual rate is `0`. -/
theorem claim_C2 (r : ℝ) :
    monthlyinterestrate r = specPeriodicRate 12 r ∧
    semimonthlyinterestrate r = specPeriodicRate 24 r ∧
    biweeklyinterestrate r = specPeriodicRate 26 r ∧
    weeklyinterestrate r = specPeriodicRate 52 r ∧
    monthlyinterestrate 0 = 0 ∧ semimonthlyinterestrate 0 = 0 ∧
    biweeklyinterestrate 0 = 0 ∧ weeklyinterestrate 0 = 0 := by
  refine ⟨?_, ?_, ?_, ?_, monthlyinterestrate_zero, semimonthlyinterestrate_zero,
    biweeklyinterestrate_zero, weeklyinterestrate_zero⟩ <;>
    norm_num [monthlyinterestrate, semimonthlyinterestrate, biweeklyinterestrate,
      weeklyinterestrate, specPeriodicRate]

/-- C3: the four base plans' payments are solved by the annuity formula
(`specAnnuityPayment`, transcribed from the spec) over the full amortization
period: `n = amortizationYears × 12` for Monthly, `× 24` for SemiMonthly, and
`× 12 × (f/12)` for BiWeekly (`f = 26`) and Weekly (`f = 52`), the possibly
fractional `n` being used unrounded as a real exponent. -/
theorem claim_C3 (self : MortgagePaymentCalculator) :
    self.calculatepayments.MonthlyPayment =
      specAnnuityPayment self.principal (monthlyinterestrate self.interestrate)
        (self.amortization_period * 12) ∧
    self.calculatepayments.SemiMonthlyPayment =
      specAnnuityPayment self.principal (semimonthlyinterestrate self.interestrate)
        (self.amortization_period * 24) ∧
    self.calculatepayments.BiweeklyPayment =
      specAnnuityPayment self.principal (biweeklyinterestrate self.interestrate)
        (self.amortization_period * 12 * (26 / 12)) ∧
    self.calculatepayments.WeeklyPayment =
      specAnnuityPayment self.principal (weeklyinterestrate self.interestrate)
        (self.amortization_period * 12 * (52 / 12)) := by
  refine ⟨?_, ?_, ?_, ?_⟩ <;>
    simp only [MortgagePaymentCalculator.calculatepayments] <;>
    exact calculate_payment_eq_spec _ _ (by ring)

/-- C4: in every schedule, each row's ending balance equals the next row's
beginning balance. -/
theorem claim_C4 (Pmt Rate bal : α) (k i j : ℕ)
    (h : j + 1 < (schedule_loop Pmt Rate k i bal).length) :
    ((schedule_loop Pmt Rate k i bal).getD j default).endingBalance =
      ((schedule_loop Pmt Rate k i bal).getD (j + 1) default).beginningBalance :=
  schedule_loop_adjacent Pmt Rate k i bal j h

theorem claim_C4_witness :
    2 + 1 < (schedule_loop (30 : ℚ) (1 / 10) 5 1 100).length ∧
    ((schedule_loop (30 : ℚ) (1 / 10) 5 1 100).getD 2 default).endingBalance =
      ((schedule_loop (30 : ℚ) (1 / 10) 5 1 100).getD (2 + 1) default).beginningBalance :=
  ⟨by norm_num [schedule_loop, specStep, round2, round_eq],
    claim_C4 30 (1 / 10) 100 5 1 2
      (by norm_num [schedule_loop, specStep, round2, round_eq])⟩

/-- C7: the rapid plans are not annuity-solved; their payments are exactly
half and a quarter of the monthly payment. -/
theorem claim_C7 (self : MortgagePaymentCalculator) :
    self.calculatepayments.RapidBiweeklyPayment =
      self.calculatepayments.MonthlyPayment / 2 ∧
    self.calculatepayments.RapidWeeklyPayment =
      self.calculatepayments.MonthlyPayment / 4 :=
  ⟨rfl, rfl⟩

/-- C9: the pipeline is deterministic — payment calculation and schedule
generation are functions of the loan parameters alone, so two runs on equal
parameters produce equal payments and equal schedules. -/
theorem claim_C9 (p₁ r₁ a₁ : ℝ) (t₁ : ℕ) (p₂ r₂ a₂ : ℝ) (t₂ : ℕ)
    (hp : p₁ = p₂) (hr : r₁ = r₂) (ha : a₁ = a₂) (ht : t₁ = t₂) :
    (mkCalculator p₁ r₁ a₁ t₁).calculatepayments =
      (mkCalculator p₂ r₂ a₂ t₂).calculatepayments ∧
    ∀ name, (mkCalculator p₁ r₁ a₁ t₁).generate_schedule name =
      (mkCalculator p₂ r₂ a₂ t₂).generate_schedule name := by
  subst hp; subst hr; subst ha; subst ht
  exact ⟨rfl, fun _ => rfl⟩

theorem claim_C9_witness :
    (100000 : ℝ) = 100000 ∧ (5.5 : ℝ) = 5.5 ∧ (25 : ℝ) = 25 ∧ (5 : ℕ) = 5 ∧
    ((mkCalculator 100000 5.5 25 5).calculatepayments =
        (mkCalculator 100000 5.5 25 5).calculatepayments ∧
      ∀ name, (mkCalculator 100000 5.5 25 5).generate_schedule name =
        (mkCalculator 100000 5.5 25 5).generate_schedule name) :=
  ⟨rfl, rfl, rfl, rfl, claim_C9 100000 5.5 25 5 100000 5.5 25 5 rfl rfl rfl rfl⟩

/-- C6: for every plan the schedule has at most
`termYears × periodsPerYear(f)` rows, where the rapid plans use their listed
frequencies 26 and 52 for the term-period count; every row except possibly
the last has a positive ending balance (the simulation stops immediately at
zero); and the schedule either ends on a zero balance (payoff within the
horizon) or runs for exactly the full term with a positive final balance. -/
theorem claim_C6 (self : MortgagePaymentCalculator) (name : PlanName) :
    frequencies PlanName.RapidBiWeekly = 26 ∧
    frequencies PlanName.RapidWeekly = 52 ∧
    (self.generate_schedule name).length ≤ self.term * frequencies name ∧
    List.Chain' (fun a _ => 0 < a.endingBalance) (self.generate_schedule name) ∧
    (self.generate_schedule name = [] ∨
      ∃ r, (self.generate_schedule name).getLast? = some r ∧
        (r.endingBalance = 0 ∨
          ((self.generate_schedule name).length = self.term * frequencies name ∧
            0 < r.endingBalance))) := by
  refine ⟨rfl, rfl, ?_, ?_, ?_⟩
  · show (build_df _ _).length ≤ _
    rw [build_df, List.length_map]
    exact schedule_loop_length_le _ _ _ _ _
  · show List.Chain' _ (build_df _ _)
    rw [build_df, List.chain'_map]
    exact schedule_loop_pos_chain _ _ _ _ _
  · show build_df _ _ = [] ∨ _
    rcases schedule_loop_getLast (payment_info self.calculatepayments name)
        (self.rates name) (self.term * frequencies name) 1 self.principal with
      hnil | ⟨r, hlast, hr⟩
    · left
      show build_df _ _ = []
      rw [build_df, hnil, List.map_nil]
    · right
      refine ⟨{ period := r.period, beginningBalance := r.beginningBalance,
                payment := round2 (payment_info self.calculatepayments name),
                interestPaid := r.interestPaid, principalPaid := r.principalPaid,
                endingBalance := r.endingBalance }, ?_, ?_⟩
      · show (build_df _ _).getLast? = some _
        rw [build_df, getLast?_map_eq, hlast, Option.map_some']
      · rcases hr with h0 | ⟨hlen, hpos⟩
        · exact Or.inl h0
        · refine Or.inr ⟨?_, hpos⟩
          show (build_df _ _).length = _
          rw [build_df, List.length_map]
          exact hlen

/-- C8: with a zero nominal rate every periodic rate is zero, so the
zero-rate branch of the annuity solver makes every plan's payment exactly
`principal / n` (the rapid plans being the monthly payment over 2 and 4),
and every row of every schedule has a zero interest portion — all as normal
computation, not an error path. -/
theorem claim_C8 (principal amortization_period : ℝ) (term : ℕ) :
    (mkCalculator principal 0 amortization_period term).calculatepayments.MonthlyPayment =
      principal / (amortization_period * 12) ∧
    (mkCalculator principal 0 amortization_period term).calculatepayments.SemiMonthlyPayment =
      principal / (amortization_period * 12 * 2) ∧
    (mkCalculator principal 0 amortization_period term).calculatepayments.BiweeklyPayment =
      principal / (amortization_period * 12 * (26 / 12)) ∧
    (mkCalculator principal 0 amortization_period term).calculatepayments.WeeklyPayment =
      principal / (amortization_period * 12 * (52 / 12)) ∧
    (mkCalculator principal 0 amortization_period term).calculatepayments.RapidBiweeklyPayment =
      principal / (amortization_period * 12) / 2 ∧
    (mkCalculator principal 0 amortization_period term).calculatepayments.RapidWeeklyPayment =
      principal / (amortization_period * 12) / 4 ∧
    ∀ name, List.Forall (fun r => r.interestPaid = 0)
      ((mkCalculator principal 0 amortization_period term).generate_schedule name) := by
  have hir : (mkCalculator principal 0 amortization_period term).interestrate = 0 := by
    simp [mkCalculator]
  have hrate : ∀ name, (mkCalculator principal 0 amortization_period term).rates name = 0 := by
    intro name
    cases name <;>
      simp [MortgagePaymentCalculator.rates, hir, monthlyinterestrate_zero,
        semimonthlyinterestrate_zero, biweeklyinterestrate_zero, weeklyinterestrate_zero]
  refine ⟨?_, ?_, ?_, ?_, ?_, ?_, ?_⟩
  · simp [MortgagePaymentCalculator.calculatepayments, hir, monthlyinterestrate_zero,
      calculate_payment, mkCalculator]
  · simp [MortgagePaymentCalculator.calculatepayments, hir, semimonthlyinterestrate_zero,
      calculate_payment, mkCalculator]
  · simp [MortgagePaymentCalculator.calculatepayments, hir, biweeklyinterestrate_zero,
      calculate_payment, mkCalculator]
  · simp [MortgagePaymentCalculator.calculatepayments, hir, weeklyinterestrate_zero,
      calculate_payment, mkCalculator]
  · simp [MortgagePaymentCalculator.calculatepayments, hir, monthlyinterestrate_zero,
      calculate_payment, mkCalculator]
  · simp [MortgagePaymentCalculator.calculatepayments, hir, monthlyinterestrate_zero,
      calculate_payment, mkCalculator]
  · intro name
    show List.Forall _ (build_df _ _)
    rw [build_df, List.forall_map_iff, hrate name]
    exact schedule_loop_zero_rate _ _ _ _

/-- C10: the `Payment` column is the same value in every row, namely
`round2` of the plan's periodic payment, while the per-period arithmetic
uses the unrounded payment; and there are inputs — here a clamped final
payoff row — where a row's interest plus principal differs from its
displayed `Payment`. -/
theorem claim_C10 (self : MortgagePaymentCalculator) (name : PlanName) :
    List.Forall
      (fun r => r.payment = round2 (payment_info self.calculatepayments name))
      (self.generate_schedule name) ∧
    ∃ r ∈ build_df (30 : ℚ) (schedule_loop (30 : ℚ) 0 1 1 10),
      r.interestPaid + r.principalPaid ≠ r.payment := by
  constructor
  · show List.Forall _ (build_df _ _)
    rw [build_df, List.forall_map_iff, List.forall_iff_forall_mem]
    intro r _
    rfl
  · refine ⟨⟨1, 10, 30, 0, 10, 0⟩, ?_, by norm_num⟩
    norm_num [schedule_loop, build_df, round2, round_eq]

/-! ### The monotonicity claim fails unconditionally: a counterexample -/

